import Mathlib

/-!
Shallow embedding of the RFID_RP hardware-supervision layer.

Sources embedded here:
- `src/mr793200/mr793200_controller.py` — the SPI NVM protocol client
  (`read_nvm1`, `read_nvm4`): transaction byte layouts and response decoding.
- `src/battery/main_rp.py` — the PCA9539 port-expander driver
  (`init_device`, `set_outputs_16`, `shutdown_safe`), the SPI reader cycle
  (`spi_reader_task` loop body) and the VDET/RESET poll step
  (`gpio_poll_task` loop body).
- `src/driver/main_rp.py` — the fan/seat poller (`MR793200Poller`): nibble
  extraction, sentinel filtering and previous-value carry-forward.

Bytes are modelled as `Nat` (with explicit `% 256` / `&&& 0xFF` where the
source masks), Python list slices `l[a:b]` as `(l.drop a).take b-a` (which
has the same silent-truncation behaviour at the end of the list), and the
I2C bus as a script of responses consumed one per bus operation, where each
operation either succeeds (for reads: with a byte value) or raises.
-/

/-! ## SPI NVM protocol client (`mr793200_controller.py`) -/

/-- Opcode `READ_NVM1 = 0x01 << 4` from `mr793200_controller.py`. -/
def READ_NVM1 : Nat := 0x01 <<< 4

/-- Transmit buffer of `read_nvm1`:
`[READ_NVM1 | addr_msb, addr_lsb, 0x00, 0x00] + [0x00]*word_len*2`. -/
def read_nvm1_tx (addr_msb addr_lsb word_len : Nat) : List Nat :=
  [READ_NVM1 ||| addr_msb, addr_lsb, 0x00, 0x00] ++ List.replicate (word_len * 2) 0x00

/-- Transmit buffer of `read_nvm4`:
`[READ_NVM1 | addr_msb, addr_lsb, 0x00, 0x00] + [0x00] * (word_len * 4)`. -/
def read_nvm4_tx (addr_msb addr_lsb word_len : Nat) : List Nat :=
  [READ_NVM1 ||| addr_msb, addr_lsb, 0x00, 0x00] ++ List.replicate (word_len * 4) 0x00

/-- Decode step of `read_nvm1` applied to the raw SPI response: drop the
first 2 bytes, then concatenate the slices `read_data[2*(2*i+1) : 2*(2*i+1)+2]`
for `i = 0 .. word_len-1` (Python slices truncate at the end of the list,
exactly as `List.drop/take` do). -/
def read_nvm1_decode (resp : List Nat) (word_len : Nat) : List Nat :=
  let read_data := resp.drop 2
  (List.range word_len).foldl
    (fun acc i => acc ++ ((read_data.drop (2 * (2 * i + 1))).take 2)) []

/-- Decode of `read_nvm4` applied to the raw SPI response: raise
(`IOError`, modelled as `Except.error`) iff the response is shorter than
`4 + word_len * 4` bytes; otherwise drop the 4 header bytes and concatenate
`payload[i*4 : i*4+2]` for each word. -/
def read_nvm4_decode (resp : List Nat) (word_len : Nat) : Except Unit (List Nat) :=
  if resp.length < 4 + word_len * 4 then
    .error ()
  else
    .ok ((List.range word_len).foldl
      (fun acc i => acc ++ (((resp.drop 4).drop (i * 4)).take 2)) [])

/-- Big-endian 16-bit words of a byte stream, as produced by
`bytearray(...).hex()` followed by the callers' `int(hex, 16)` per 4 hex
chars: bytes are paired in order, high byte first. -/
def wordsOfBytes : List Nat → List Nat
  | a :: b :: t => (a * 256 + b) :: wordsOfBytes t
  | _ => []

/-! ### Characterization lemmas for the two decoders -/

theorem foldl_append_eq_flatMap (f : Nat → List Nat) :
    ∀ (l : List Nat) (acc : List Nat),
      l.foldl (fun a i => a ++ f i) acc = acc ++ l.flatMap f := by
  intro l
  induction l with
  | nil => intro acc; simp
  | cons x t ih => intro acc; simp [List.foldl_cons, ih]

/-- The Mode-A decoder reads, for each requested word `i`, the slice of the
raw response starting at byte `4*i + 4`. -/
theorem read_nvm1_decode_eq (resp : List Nat) (c : Nat) :
    read_nvm1_decode resp c
      = (List.range c).flatMap (fun i => (resp.drop (4 * i + 4)).take 2) := by
  unfold read_nvm1_decode
  rw [foldl_append_eq_flatMap]
  simp only [List.nil_append]
  apply List.flatMap_congr
  intro i _
  rw [List.drop_drop]
  ring_nf

/-- The Mode-B decoder, when the response is long enough, reads for each
word `i` the slice of the raw response starting at byte `4*i + 4` —
the very same slice as the Mode-A decoder. -/
theorem read_nvm4_decode_eq (resp : List Nat) (c : Nat)
    (h : ¬ resp.length < 4 + c * 4) :
    read_nvm4_decode resp c
      = .ok ((List.range c).flatMap (fun i => (resp.drop (4 * i + 4)).take 2)) := by
  unfold read_nvm4_decode
  rw [if_neg h]
  congr 1
  rw [foldl_append_eq_flatMap]
  simp only [List.nil_append]
  apply List.flatMap_congr
  intro i _
  rw [List.drop_drop]
  ring_nf

/-- A 2-byte Python slice `l[n : n+2]` that lies fully inside the list is the
pair of elements at positions `n` and `n+1`. -/
theorem take_two_of_drop :
    ∀ (l : List Nat) (n : Nat), n + 2 ≤ l.length →
      (l.drop n).take 2 = [l.getD n 0, l.getD (n + 1) 0] := by
  intro l
  induction l with
  | nil => intro n h; simp at h
  | cons a t ih =>
    intro n h
    cases n with
    | zero =>
      cases t with
      | nil => simp at h
      | cons b u => simp [List.getD]
    | succ m =>
      simp only [List.length_cons] at h
      simpa [List.getD] using ih m (by omega)

/-- Slices that start past the end of the list are empty, so a
`flatMap` over `range c` collapses to the prefix of indices whose slices
remain inside the list. -/
theorem flatMap_range_eventually_nil (f : Nat → List Nat) (k : Nat)
    (hf : ∀ i, k ≤ i → f i = []) :
    ∀ c, k ≤ c → (List.range c).flatMap f = (List.range k).flatMap f := by
  intro c
  induction c with
  | zero =>
    intro h
    have : k = 0 := by omega
    subst this; rfl
  | succ m ih =>
    intro h
    rcases Nat.lt_or_ge k (m + 1) with hlt | hge
    · have hkm : k ≤ m := by omega
      rw [List.range_succ, List.flatMap_append, ih hkm]
      simp [hf m hkm]
    · have : k = m + 1 := by omega
      subst this; rfl

/-- A synthetic ("correctly-shaped") Mode-A response: 2 echo bytes, then for
each word one echoed 2-byte slot followed by the word's 2 data bytes — the
shape `read_nvm1`'s skip rule expects. -/
def modeA_response (pairs : List (Nat × Nat)) : List Nat :=
  [0, 0] ++ pairs.flatMap (fun p => [0, 0, p.1, p.2])

/-- A synthetic ("correctly-shaped") Mode-B response: a 4-byte header, then
for each word a 4-byte block whose first 2 bytes are the word's data --- the
shape `read_nvm4` expects. -/
def modeB_response (pairs : List (Nat × Nat)) : List Nat :=
  [0, 0, 0, 0] ++ pairs.flatMap (fun p => [p.1, p.2, 0, 0])

/-- Reading the 2-byte slice at offset `4*i + off` of a stream of 4-byte
blocks recovers block `i`'s bytes at offsets `off`, `off+1`. -/
theorem blocks_slices (blk : Nat × Nat → List Nat) (off : Nat)
    (hlen : ∀ p, (blk p).length = 4) (hoff : off + 2 ≤ 4)
    (hsel : ∀ p, ((blk p).drop off).take 2 = [p.1, p.2]) :
    ∀ pairs : List (Nat × Nat),
      (List.range pairs.length).flatMap
          (fun i => ((pairs.flatMap blk).drop (4 * i + off)).take 2)
        = pairs.flatMap (fun p => [p.1, p.2]) := by
  intro pairs
  induction pairs with
  | nil => rfl
  | cons p t ih =>
    rw [List.flatMap_cons, List.flatMap_cons, List.length_cons,
      List.range_succ_eq_map, List.flatMap_cons, List.flatMap_map]
    have h0 : (((blk p ++ t.flatMap blk).drop (4 * 0 + off)).take 2) = [p.1, p.2] := by
      rw [Nat.mul_zero, Nat.zero_add,
        List.drop_append_of_le_length (by rw [hlen]; omega),
        List.take_append_of_le_length (by rw [List.length_drop, hlen]; omega),
        hsel]
    rw [h0]
    congr 1
    rw [← ih]
    apply List.flatMap_congr
    intro i _
    have harith : 4 * (Nat.succ i) + off = (blk p).length + (4 * i + off) := by
      rw [hlen]; omega
    rw [harith, List.drop_append]

theorem wordsOfBytes_pairs :
    ∀ pairs : List (Nat × Nat),
      wordsOfBytes (pairs.flatMap (fun p => [p.1, p.2]))
        = pairs.map (fun p => p.1 * 256 + p.2) := by
  intro pairs
  induction pairs with
  | nil => rfl
  | cons p t ih =>
    rw [List.flatMap_cons, List.cons_append, List.cons_append, List.nil_append]
    rw [show wordsOfBytes (p.1 :: p.2 :: t.flatMap fun q => [q.1, q.2])
        = (p.1 * 256 + p.2) :: wordsOfBytes (t.flatMap fun q => [q.1, q.2]) from rfl]
    rw [ih, List.map_cons]

theorem flatMap_blocks_length (blk : Nat × Nat → List Nat)
    (hlen : ∀ p, (blk p).length = 4) :
    ∀ pairs : List (Nat × Nat), (pairs.flatMap blk).length = pairs.length * 4 := by
  intro pairs
  induction pairs with
  | nil => rfl
  | cons p t ih =>
    rw [List.flatMap_cons, List.length_append, hlen, ih, List.length_cons]
    ring

theorem modeA_crafted (pairs : List (Nat × Nat)) :
    read_nvm1_decode (modeA_response pairs) pairs.length
      = pairs.flatMap (fun p => [p.1, p.2]) := by
  rw [read_nvm1_decode_eq]
  have hstep :
      (List.range pairs.length).flatMap
          (fun i => ((modeA_response pairs).drop (4 * i + 4)).take 2)
        = (List.range pairs.length).flatMap
            (fun i => (((pairs.flatMap (fun p => [0, 0, p.1, p.2])).drop (4 * i + 2)).take 2)) := by
    apply List.flatMap_congr
    intro i _
    have h4 : 4 * i + 4 = ([0, 0] : List Nat).length + (4 * i + 2) := by simp; omega
    rw [modeA_response, h4, List.drop_append]
  rw [hstep]
  exact blocks_slices (fun p => [0, 0, p.1, p.2]) 2
    (fun p => rfl) (by omega) (fun p => rfl) pairs

theorem modeB_response_length (pairs : List (Nat × Nat)) :
    (modeB_response pairs).length = 4 + pairs.length * 4 := by
  rw [modeB_response, List.length_append,
    flatMap_blocks_length (fun p => [p.1, p.2, 0, 0]) (fun p => rfl) pairs]
  rfl

theorem modeB_crafted (pairs : List (Nat × Nat)) :
    read_nvm4_decode (modeB_response pairs) pairs.length
      = .ok (pairs.flatMap (fun p => [p.1, p.2])) := by
  rw [read_nvm4_decode_eq _ _ (by rw [modeB_response_length]; omega)]
  congr 1
  have hstep :
      (List.range pairs.length).flatMap
          (fun i => ((modeB_response pairs).drop (4 * i + 4)).take 2)
        = (List.range pairs.length).flatMap
            (fun i => (((pairs.flatMap (fun p => [p.1, p.2, 0, 0])).drop (4 * i + 0)).take 2)) := by
    apply List.flatMap_congr
    intro i _
    have h4 : 4 * i + 4 = ([0, 0, 0, 0] : List Nat).length + (4 * i + 0) := by simp; omega
    rw [modeB_response, h4, List.drop_append]
  rw [hstep]
  exact blocks_slices (fun p => [p.1, p.2, 0, 0]) 0
    (fun p => rfl) (by omega) (fun p => rfl) pairs

/-! ## Claim theorems for the NVM protocol -/

/-- C3 (counterexample): with `count = 2`, a full-length Mode-A transaction
response (8 bytes, matching the transmitted `4 + 2*2` bytes) decodes to a
single 16-bit word, not one word per requested word: the slice for word 1
starts at offset 6 of the 6-byte remaining stream and is empty. -/
theorem read_nvm1_per_word_counterexample :
    ([0, 0, 0, 0, 0x12, 0x34, 0x56, 0x78] : List Nat).length
        = (read_nvm1_tx 0x04 0x22 2).length
      ∧ read_nvm1_decode [0, 0, 0, 0, 0x12, 0x34, 0x56, 0x78] 2 = [0x12, 0x34]
      ∧ (wordsOfBytes (read_nvm1_decode [0, 0, 0, 0, 0x12, 0x34, 0x56, 0x78] 2)).length
          ≠ 2 := by
  decide

/-- C3 (amended): for `count ≥ 1`, a Mode-A read issues the 4-byte header
plus `2*count` filler bytes, discards the first 2 response bytes and takes
the byte pair at offset `2*(2*i+1)` of the remaining stream; since the
response has only `4 + 2*count` bytes, this produces one big-endian 16-bit
word per index `i < (count+1)/2` (taken from response bytes `4*i+4` and
`4*i+5`), i.e. `⌈count/2⌉` words — one word per requested word only for
`count = 1`. -/
theorem read_nvm1_modeA_amended (addr_msb addr_lsb c : Nat) (resp : List Nat)
    (hc : 1 ≤ c) (hlen : resp.length = (read_nvm1_tx addr_msb addr_lsb c).length) :
    read_nvm1_decode resp c
      = (List.range ((c + 1) / 2)).flatMap
          (fun i => [resp.getD (4 * i + 4) 0, resp.getD (4 * i + 5) 0])
      ∧ wordsOfBytes (read_nvm1_decode resp c)
        = (List.range ((c + 1) / 2)).map
            (fun i => resp.getD (4 * i + 4) 0 * 256 + resp.getD (4 * i + 5) 0) := by
  have hL : resp.length = 4 + c * 2 := by
    simp only [read_nvm1_tx, List.length_append, List.length_cons,
      List.length_nil, List.length_replicate] at hlen
    omega
  have hmain : read_nvm1_decode resp c
      = (List.range ((c + 1) / 2)).flatMap
          (fun i => [resp.getD (4 * i + 4) 0, resp.getD (4 * i + 5) 0]) := by
    rw [read_nvm1_decode_eq]
    rw [flatMap_range_eventually_nil _ ((c + 1) / 2)
      (by
        intro i hi
        have hdrop : resp.drop (4 * i + 4) = [] :=
          List.drop_eq_nil_of_le (by omega)
        rw [hdrop, List.take_nil])
      c (by omega)]
    apply List.flatMap_congr
    intro i hi
    rw [List.mem_range] at hi
    exact take_two_of_drop resp (4 * i + 4) (by omega)
  refine ⟨hmain, ?_⟩
  rw [hmain]
  have hmap :
      (List.range ((c + 1) / 2)).flatMap
          (fun i => [resp.getD (4 * i + 4) 0, resp.getD (4 * i + 5) 0])
        = ((List.range ((c + 1) / 2)).map
            (fun i => (resp.getD (4 * i + 4) 0, resp.getD (4 * i + 5) 0))).flatMap
              (fun p => [p.1, p.2]) := by
    rw [List.flatMap_map]
  rw [hmap, wordsOfBytes_pairs, List.map_map]
  rfl

theorem read_nvm1_modeA_amended_witness :
    read_nvm1_decode [0, 0, 0, 0, 0x12, 0x34, 0x56, 0x78] 2
      = (List.range ((2 + 1) / 2)).flatMap
          (fun i => [([0, 0, 0, 0, 0x12, 0x34, 0x56, 0x78] : List Nat).getD (4 * i + 4) 0,
            ([0, 0, 0, 0, 0x12, 0x34, 0x56, 0x78] : List Nat).getD (4 * i + 5) 0]) :=
  (read_nvm1_modeA_amended 0x04 0x22 2 [0, 0, 0, 0, 0x12, 0x34, 0x56, 0x78]
    (by decide) (by decide)).1

/-- C5: `read_nvm4` raises its short-response error iff the returned byte
count is below `4 + 4*count`; otherwise it discards the first 4 response
bytes and takes, for each word `i`, the first 2 bytes of that word's 4-byte
block (response bytes `4*i+4` and `4*i+5`). -/
theorem read_nvm4_modeB_spec (c : Nat) (resp : List Nat) :
    (read_nvm4_decode resp c = .error () ↔ resp.length < 4 + c * 4)
      ∧ (¬ resp.length < 4 + c * 4 →
          read_nvm4_decode resp c
            = .ok ((List.range c).flatMap
                (fun i => [resp.getD (4 * i + 4) 0, resp.getD (4 * i + 5) 0]))) := by
  constructor
  · unfold read_nvm4_decode
    by_cases h : resp.length < 4 + c * 4
    · simp [h]
    · simp [h]
  · intro h
    rw [read_nvm4_decode_eq _ _ h]
    congr 1
    apply List.flatMap_congr
    intro i hi
    rw [List.mem_range] at hi
    exact take_two_of_drop resp (4 * i + 4) (by omega)

theorem read_nvm4_modeB_spec_witness :
    read_nvm4_decode [0, 0, 0, 0, 0x12, 0x34, 0, 0] 1 = .ok [0x12, 0x34] := by
  have h := (read_nvm4_modeB_spec 1 [0, 0, 0, 0, 0x12, 0x34, 0, 0]).2 (by decide)
  rw [h]
  rfl

/-- C4: Mode-A decode and Mode-B decode agree on the logical word values.
In the strongest sense, fed the same raw bytes the two decoders select the
very same byte pairs; fed each mode's own correctly-shaped synthetic
response encoding a list of words, each independently reproduces exactly
those words; in particular a response crafted for each mode makes word 0
decode to 0x1234 under that mode. -/
theorem modeA_modeB_equivalence :
    (∀ (resp : List Nat) (c : Nat), ¬ resp.length < 4 + c * 4 →
        read_nvm4_decode resp c = .ok (read_nvm1_decode resp c))
      ∧ (∀ pairs : List (Nat × Nat),
          wordsOfBytes (read_nvm1_decode (modeA_response pairs) pairs.length)
              = pairs.map (fun p => p.1 * 256 + p.2)
            ∧ read_nvm4_decode (modeB_response pairs) pairs.length
                = .ok (pairs.flatMap (fun p => [p.1, p.2]))
            ∧ wordsOfBytes (pairs.flatMap (fun p => [p.1, p.2]))
                = pairs.map (fun p => p.1 * 256 + p.2))
      ∧ wordsOfBytes (read_nvm1_decode [0, 0, 0, 0, 0x12, 0x34] 1) = [0x1234]
      ∧ wordsOfBytes ((read_nvm4_decode [0, 0, 0, 0, 0x12, 0x34, 0, 0] 1).toOption.getD [])
          = [0x1234] := by
  refine ⟨?_, ?_, by decide, by decide⟩
  · intro resp c h
    rw [read_nvm4_decode_eq _ _ h, read_nvm1_decode_eq]
  · intro pairs
    exact ⟨by rw [modeA_crafted, wordsOfBytes_pairs],
      modeB_crafted pairs, wordsOfBytes_pairs pairs⟩

theorem modeA_modeB_equivalence_witness :
    read_nvm4_decode [9, 9, 9, 9, 0x12, 0x34, 7, 7] 1
      = .ok (read_nvm1_decode [9, 9, 9, 9, 0x12, 0x34, 7, 7] 1) :=
  modeA_modeB_equivalence.1 [9, 9, 9, 9, 0x12, 0x34, 7, 7] 1 (by decide)

/-! ## PCA9539 port-expander driver (`battery/main_rp.py`) -/

/-- PCA9539 register addresses, from `battery/main_rp.py`. -/
def REG_OUT0 : Nat := 0x02
def REG_OUT1 : Nat := 0x03
def REG_POL0 : Nat := 0x04
def REG_POL1 : Nat := 0x05
def REG_CFG0 : Nat := 0x06
def REG_CFG1 : Nat := 0x07

/-- Scripted outcome of one I2C bus operation: the hardware either completes
the operation (for reads, returning byte `v`) or the smbus call raises. -/
inductive Resp where
  | ok (v : Nat)
  | err
deriving DecidableEq

/-- The remaining script of bus-operation outcomes. -/
abbrev Script := List Resp

/-- In-memory state of a `PCA9539Controller` object: whether `self.bus` is
open (`bus is not None`) and the `self.initialized` flag. These are the only
attributes the controller's methods mutate — in particular the object keeps
no output-mask attribute. -/
structure Ctrl where
  busOpen : Bool
  initialized : Bool
deriving DecidableEq

/-- Consume the next scripted outcome for one bus operation. An exhausted
script behaves as a raising operation. On a raise the remaining script is
carried in the error so the caller's exception handler can continue. -/
def busStep : Script → Except Script (Nat × Script)
  | [] => .error []
  | .ok v :: s => .ok (v, s)
  | .err :: s => .error s

/-- Model of `read_reg`: one bus read, result masked with `& 0xFF`. -/
def read_reg (s : Script) : Except Script (Nat × Script) :=
  match busStep s with
  | .ok (v, s) => .ok (v &&& 0xFF, s)
  | .error s => .error s

/-- Model of `write_reg(reg, val)`: one bus write; the register and value do not
influence the scripted outcome. -/
def write_reg (reg val : Nat) (s : Script) : Except Script Script :=
  match busStep s with
  | .ok (_, s) => .ok s
  | .error s => .error s

/-- Body of `init_device` after `open()`: write 0x00 to the two polarity,
two configuration and two output registers (in that order, each pair of
writes followed by its pair of readbacks) and return the six readback
values `(pol0, pol1, cfg0, cfg1, out0, out1)`. -/
def initBody (s : Script) : Except Script ((Nat × Nat × Nat × Nat × Nat × Nat) × Script) := do
  let s ← write_reg REG_POL0 0x00 s
  let s ← write_reg REG_POL1 0x00 s
  let (pol0, s) ← read_reg s
  let (pol1, s) ← read_reg s
  let s ← write_reg REG_CFG0 0x00 s
  let s ← write_reg REG_CFG1 0x00 s
  let (cfg0, s) ← read_reg s
  let (cfg1, s) ← read_reg s
  let s ← write_reg REG_OUT0 0x00 s
  let s ← write_reg REG_OUT1 0x00 s
  let (out0, s) ← read_reg s
  let (out1, s) ← read_reg s
  pure ((pol0, pol1, cfg0, cfg1, out0, out1), s)

/-- Model of `init_device`: `open()` the bus if it is not already open (a failing
open leaves `bus = None`), run the six-register write/readback sequence,
set `initialized` to whether all six readbacks are 0x00 and return that; any
raising bus operation is caught, yields `initialized = False` and returns
`False` (the function never propagates the exception). -/
def init_device (st : Ctrl) (s : Script) : Ctrl × Bool × Script :=
  if st.busOpen then
    match initBody s with
    | .ok ((pol0, pol1, cfg0, cfg1, out0, out1), s) =>
      let ok := pol0 == 0x00 && pol1 == 0x00 && cfg0 == 0x00 && cfg1 == 0x00 &&
        out0 == 0x00 && out1 == 0x00
      (⟨true, ok⟩, ok, s)
    | .error s => (⟨true, false⟩, false, s)
  else
    match busStep s with
    | .error s => (⟨false, false⟩, false, s)
    | .ok (_, s) =>
      match initBody s with
      | .ok ((pol0, pol1, cfg0, cfg1, out0, out1), s) =>
        let ok := pol0 == 0x00 && pol1 == 0x00 && cfg0 == 0x00 && cfg1 == 0x00 &&
          out0 == 0x00 && out1 == 0x00
        (⟨true, ok⟩, ok, s)
      | .error s => (⟨true, false⟩, false, s)

/-- Observation used to state C2: the six readback values of the
`init_device` bus sequence, or `none` when some bus operation raises
(including a failing `open`). -/
def initOutcome (st : Ctrl) (s : Script) : Option (Nat × Nat × Nat × Nat × Nat × Nat) :=
  if st.busOpen then
    match initBody s with
    | .ok (v, _) => some v
    | .error _ => none
  else
    match busStep s with
    | .error _ => none
    | .ok (_, s) =>
      match initBody s with
      | .ok (v, _) => some v
      | .error _ => none

/-- Model of `set_outputs_16`: refuse (return `False`) unless the bus is open and the
device initialized; otherwise write the low byte to output register 0 and
the high byte to output register 1, read both back, and return whether both
readbacks match. No attribute of the controller is assigned. -/
def set_outputs_16 (st : Ctrl) (mask16 : Nat) (s : Script) : Ctrl × Bool × Script :=
  if !st.busOpen || !st.initialized then
    (st, false, s)
  else
    let out0 := mask16 &&& 0xFF
    let out1 := (mask16 >>> 8) &&& 0xFF
    match (do
      let s ← write_reg REG_OUT0 out0 s
      let s ← write_reg REG_OUT1 out1 s
      let (r0, s) ← read_reg s
      let (r1, s) ← read_reg s
      pure ((r0 == out0 && r1 == out1), s) :
        Except Script (Bool × Script)) with
    | .ok (ok, s) => (st, ok, s)
    | .error s => (st, false, s)

/-- Model of `shutdown_safe`: if the bus is open, attempt to write 0x00 to both
output registers (a raise is caught and stops the remaining write); then,
in the `finally` block, close the bus if open (a raise is caught); finally
set `bus = None` and `initialized = False` unconditionally. -/
def shutdown_safe (st : Ctrl) (s : Script) : Ctrl × Script :=
  let s1 :=
    if st.busOpen then
      match write_reg REG_OUT0 0x00 s with
      | .error s => s
      | .ok s =>
        match write_reg REG_OUT1 0x00 s with
        | .error s => s
        | .ok s => s
    else s
  let s2 :=
    if st.busOpen then
      match busStep s1 with
      | .ok (_, s) => s
      | .error s => s
    else s1
  (⟨false, false⟩, s2)

/-! ## Claim theorems for the expander driver -/

/-- C1: whenever a `set_outputs_16` write-verify does not succeed — in
particular whenever the readback differs from the written value — the
in-memory controller state equals its pre-write value. (The controller
stores no output-mask attribute at all, so no attempt can ever leave the
attempted value in memory; the last verified value is whatever the hardware
verified, and the in-memory state is untouched.) -/
theorem set_outputs_16_verify_frame (st : Ctrl) (mask16 : Nat) (s : Script)
    (h : (set_outputs_16 st mask16 s).2.1 = false) :
    (set_outputs_16 st mask16 s).1 = st := by
  unfold set_outputs_16
  split
  · rfl
  · dsimp only
    split <;> rfl

theorem set_outputs_16_verify_frame_witness :
    (set_outputs_16 ⟨true, true⟩ 0xFFFF [.ok 0, .ok 0, .ok 1, .ok 2]).1
      = ⟨true, true⟩ :=
  set_outputs_16_verify_frame ⟨true, true⟩ 0xFFFF [.ok 0, .ok 0, .ok 1, .ok 2]
    (by decide)

/-- C2: `init_device` returns `true` iff the bus sequence completed without
raising and all six readbacks (pol0, pol1, cfg0, cfg1, out0, out1) are 0x00;
`initialized` is set to exactly the returned value; and a raising bus
operation anywhere in the sequence yields a `false` return with
`initialized = false` (the embedding is a total function: the exception is
caught, not propagated). -/
theorem init_device_spec (st : Ctrl) (s : Script) :
    ((init_device st s).2.1 = true ↔
        ∃ v, initOutcome st s = some v ∧ v.1 = 0 ∧ v.2.1 = 0 ∧ v.2.2.1 = 0
          ∧ v.2.2.2.1 = 0 ∧ v.2.2.2.2.1 = 0 ∧ v.2.2.2.2.2 = 0)
      ∧ (init_device st s).1.initialized = (init_device st s).2.1
      ∧ (initOutcome st s = none →
          (init_device st s).2.1 = false ∧ (init_device st s).1.initialized = false) := by
  unfold init_device initOutcome
  by_cases hb : st.busOpen
  · simp only [hb, if_true]
    rcases hbody : initBody s with s1 | ⟨⟨pol0, pol1, cfg0, cfg1, out0, out1⟩, s1⟩
    · simp
    · simp [Bool.and_eq_true, beq_iff_eq, and_assoc]
  · simp only [hb, Bool.false_eq_true, if_false]
    rcases hstep : busStep s with s1 | ⟨v, s1⟩
    · simp
    · rcases hbody : initBody s1 with s2 | ⟨⟨pol0, pol1, cfg0, cfg1, out0, out1⟩, s2⟩
      · simp [hbody]
      · simp [hbody, Bool.and_eq_true, beq_iff_eq, and_assoc]

theorem init_device_spec_witness :
    (init_device ⟨false, false⟩ []).2.1 = false
      ∧ (init_device ⟨false, false⟩ []).1.initialized = false :=
  (init_device_spec ⟨false, false⟩ []).2.2 (by rfl)

/-- C9: `shutdown_safe` always ends with the bus handle released and
`initialized = false`, whatever the pre-state and however the zeroing
writes or the close behave (any raising operation is caught); and a second
call from that final state consumes no bus operation and returns the same
final state, so the call is idempotent. -/
theorem shutdown_safe_spec (st : Ctrl) (s s' : Script) :
    (shutdown_safe st s).1 = ⟨false, false⟩
      ∧ shutdown_safe ⟨false, false⟩ s' = (⟨false, false⟩, s') := by
  constructor
  · rfl
  · rfl

/-! ## VDET/RESET poll step and SPI reader cycle (`battery/main_rp.py`) -/

/-- The `AppState` fields touched by the two periodic tasks: the sampled
detect input and tracked reset output (both `Optional[bool]`, `None` before
first sample), the expander controller object and the `i2c_ready` flag. -/
structure PollState where
  vdet_state : Option Bool
  reset_state : Option Bool
  pca : Ctrl
  i2c_ready : Bool
deriving DecidableEq

/-- One iteration of the `gpio_poll_task` loop body, given the freshly
sampled detect level `vdet_now`. A `None` previous sample is first filled
with `vdet_now` (so no edge fires). On a rising edge: reset is driven high
(after the 100 ms delay) and, unless the expander is already initialized,
`init_device` runs and its result becomes `i2c_ready`. On a falling edge:
reset is driven low immediately; nothing else is touched. -/
def gpio_poll_iter (st : PollState) (vdet_now : Bool) (s : Script) :
    PollState × Script :=
  let prev := st.vdet_state.getD vdet_now
  if vdet_now != prev then
    if vdet_now then
      if st.pca.initialized then
        ({ st with
            vdet_state := some vdet_now
            reset_state := some true
            i2c_ready := true }, s)
      else
        let r := init_device st.pca s
        ({ vdet_state := some vdet_now
           reset_state := some true
           pca := r.1
           i2c_ready := r.2.1 }, r.2.2)
    else
      ({ st with vdet_state := some vdet_now, reset_state := some false }, s)
  else
    ({ st with vdet_state := some vdet_now }, s)

/-- One iteration of the `spi_reader_task` loop body, reduced to its
decision structure: `readOk` says whether the SPI reads of this cycle
succeeded (a raise is caught by the loop's `except`, which skips the rest of
the cycle); when they did, the expander write is forwarded only under
`pca.initialized and i2c_ready and vdet_state and reset_state` (Python
truthiness: `None` counts as false). `wrote` records whether
`set_outputs_16` was invoked, `warned` whether the verify-failure warning
was printed; the function is total — no branch propagates an exception out
of the cycle. -/
def spi_cycle (st : PollState) (readOk : Bool) (on_off_word : Nat) (s : Script) :
    Ctrl × Bool × Bool × Script :=
  if !readOk then
    (st.pca, false, false, s)
  else if st.pca.initialized && st.i2c_ready && (st.vdet_state.getD false)
      && (st.reset_state.getD false) then
    let r := set_outputs_16 st.pca on_off_word s
    (r.1, true, !r.2.1, r.2.2)
  else
    (st.pca, false, false, s)

/-! ## Claim theorems for the poll tasks -/

/-- C7: in the channel-profile poll cycle the on/off bitmap is forwarded to
the expander only in cycles where detect, reset, expander-init (and
`i2c_ready`) are all simultaneously healthy; if any of detect, reset or
expander-init is unhealthy, `set_outputs_16` is not invoked and no bus
operation is consumed; and a verify failure of a forwarded write only sets
the warning — the cycle still returns normally. -/
theorem spi_cycle_gating (st : PollState) (readOk : Bool) (w : Nat) (s : Script) :
    ((spi_cycle st readOk w s).2.1 = true →
        st.vdet_state = some true ∧ st.reset_state = some true
          ∧ st.pca.initialized = true ∧ st.i2c_ready = true)
      ∧ (st.vdet_state ≠ some true ∨ st.reset_state ≠ some true
            ∨ st.pca.initialized = false →
          (spi_cycle st readOk w s).2.1 = false
            ∧ (spi_cycle st readOk w s).2.2.2 = s)
      ∧ ((spi_cycle st readOk w s).2.1 = true
            ∧ (set_outputs_16 st.pca w s).2.1 = false →
          (spi_cycle st readOk w s).2.2.1 = true) := by
  unfold spi_cycle
  rcases st with ⟨vdet, reset, pca, i2c⟩
  by_cases hr : readOk
  · simp only [hr, Bool.not_true, Bool.false_eq_true, if_false]
    by_cases hc : pca.initialized && i2c && (vdet.getD false) && (reset.getD false)
    · have hv : vdet = some true := by
        rcases vdet with _ | b
        · simp at hc
        · rcases b with _ | _ <;> simp_all
      have hrs : reset = some true := by
        rcases reset with _ | b
        · simp at hc
        · rcases b with _ | _ <;> simp_all
      simp only [hc, if_true]
      refine ⟨fun _ => ⟨hv, hrs, by simp_all, by simp_all⟩, ?_, ?_⟩
      · intro hbad
        rcases hbad with hbad | hbad | hbad
        · exact absurd hv hbad
        · exact absurd hrs hbad
        · simp_all
      · intro ⟨_, hfail⟩
        simp [hfail]
    · simp only [hc, Bool.false_eq_true, if_false]
      exact ⟨by simp, fun _ => by simp, by simp⟩
  · simp only [Bool.not_eq_true] at hr
    simp [hr]

theorem spi_cycle_gating_witness :
    (spi_cycle ⟨some true, some true, ⟨true, true⟩, true⟩ true 0xFFFF
        [.ok 0, .ok 0, .ok 1, .ok 2]).2.2.1 = true :=
  (spi_cycle_gating ⟨some true, some true, ⟨true, true⟩, true⟩ true 0xFFFF
      [.ok 0, .ok 0, .ok 1, .ok 2]).2.2 ⟨by decide, by decide⟩

/-- C8: from any state of the detect/reset sequencer, an observed falling
edge (previous sample high, current sample low) sets the tracked reset
output low in that same iteration (back to the idle configuration), and
leaves the expander controller state and `i2c_ready` unchanged, consuming
no bus operation (so the expander is neither re-initialized nor cleared);
and every further low sample before the next rising edge again leaves the
reset output, the expander controller state and `i2c_ready` unchanged. -/
theorem falling_edge_frame (st : PollState) (s : Script)
    (h : st.vdet_state = some true) :
    ((gpio_poll_iter st false s).1.reset_state = some false
        ∧ (gpio_poll_iter st false s).1.vdet_state = some false
        ∧ (gpio_poll_iter st false s).1.pca = st.pca
        ∧ (gpio_poll_iter st false s).1.i2c_ready = st.i2c_ready
        ∧ (gpio_poll_iter st false s).2 = s)
      ∧ ∀ (st2 : PollState) (s2 : Script), st2.vdet_state = some false →
          (gpio_poll_iter st2 false s2).1.reset_state = st2.reset_state
            ∧ (gpio_poll_iter st2 false s2).1.vdet_state = some false
            ∧ (gpio_poll_iter st2 false s2).1.pca = st2.pca
            ∧ (gpio_poll_iter st2 false s2).1.i2c_ready = st2.i2c_ready
            ∧ (gpio_poll_iter st2 false s2).2 = s2 := by
  constructor
  · unfold gpio_poll_iter
    simp [h]
  · intro st2 s2 h2
    unfold gpio_poll_iter
    simp [h2]

theorem falling_edge_frame_witness :
    ((gpio_poll_iter ⟨some true, some true, ⟨true, true⟩, true⟩ false []).1.reset_state
          = some false
        ∧ (gpio_poll_iter ⟨some true, some true, ⟨true, true⟩, true⟩ false []).1.vdet_state
          = some false
        ∧ (gpio_poll_iter ⟨some true, some true, ⟨true, true⟩, true⟩ false []).1.pca
          = ⟨true, true⟩
        ∧ (gpio_poll_iter ⟨some true, some true, ⟨true, true⟩, true⟩ false []).1.i2c_ready
          = true
        ∧ (gpio_poll_iter ⟨some true, some true, ⟨true, true⟩, true⟩ false []).2 = [])
      ∧ ((gpio_poll_iter ⟨some false, some false, ⟨true, true⟩, true⟩ false []).1.reset_state
          = some false
        ∧ (gpio_poll_iter ⟨some false, some false, ⟨true, true⟩, true⟩ false []).1.vdet_state
          = some false
        ∧ (gpio_poll_iter ⟨some false, some false, ⟨true, true⟩, true⟩ false []).1.pca
          = ⟨true, true⟩
        ∧ (gpio_poll_iter ⟨some false, some false, ⟨true, true⟩, true⟩ false []).1.i2c_ready
          = true
        ∧ (gpio_poll_iter ⟨some false, some false, ⟨true, true⟩, true⟩ false []).2 = []) :=
  ⟨(falling_edge_frame ⟨some true, some true, ⟨true, true⟩, true⟩ [] (by rfl)).1,
   (falling_edge_frame ⟨some true, some true, ⟨true, true⟩, true⟩ [] (by rfl)).2
     ⟨some false, some false, ⟨true, true⟩, true⟩ [] (by rfl)⟩

/-! ## Fan/seat poller (`driver/main_rp.py`) -/

/-- One value per seating position, keyed FL, FR, RL, RR as in the Python
dicts. -/
structure Quad where
  fl : Nat
  fr : Nat
  rl : Nat
  rr : Nat
deriving DecidableEq

/-- Nibble extraction of one 16-bit word:
`FL ← [3:0], FR ← [7:4], RL ← [11:8], RR ← [15:12]`. -/
def quad_of_word (w : Nat) : Quad :=
  ⟨(w >>> 0) &&& 0xF, (w >>> 4) &&& 0xF, (w >>> 8) &&& 0xF, (w >>> 12) &&& 0xF⟩

/-- Sentinel filter for a fan nibble: `0xB <= v <= 0xF` is invalid and is
replaced by the previous value for that position. -/
def fan_filter (prev v : Nat) : Nat :=
  if 0xB ≤ v ∧ v ≤ 0xF then prev else v

/-- Sentinel filter for a heater nibble: `0x4 <= v <= 0xF` is invalid and is
replaced by the previous value for that position. -/
def seat_filter (prev v : Nat) : Nat :=
  if 0x4 ≤ v ∧ v ≤ 0xF then prev else v

/-- Apply a per-position function over two quads. -/
def quad_map2 (f : Nat → Nat → Nat) (p q : Quad) : Quad :=
  ⟨f p.fl q.fl, f p.fr q.fr, f p.rl q.rl, f p.rr q.rr⟩

/-- Initial previous values of `MR793200Poller.__init__`:
`prev_fan = prev_seat = {"FL": 0, "FR": 0, "RL": 0, "RR": 0}`. -/
def poller_init_prev : Quad := ⟨0, 0, 0, 0⟩

/-- One successful poll cycle of `MR793200Poller.start`'s loop body, given
the two decoded words (`w1` fan, `w2` heater). The filtered values are both
published and written back into the previous-value dicts
(`prev_fan.update(fan_vals)` after in-place filtering), so the new previous
values equal the published ones. -/
def poller_cycle (prev_fan prev_seat : Quad) (w1 w2 : Nat) : Quad × Quad :=
  (quad_map2 fan_filter prev_fan (quad_of_word w1),
   quad_map2 seat_filter prev_seat (quad_of_word w2))

/-- Published (fan, seat) quads over a run of the poll loop; a `none` cycle
is a raising/short SPI read, which publishes nothing and leaves the
previous values untouched. -/
def poller_run (prev_fan prev_seat : Quad) :
    List (Option (Nat × Nat)) → List (Quad × Quad)
  | [] => []
  | none :: rest => poller_run prev_fan prev_seat rest
  | some (w1, w2) :: rest =>
    let out := poller_cycle prev_fan prev_seat w1 w2
    out :: poller_run out.1 out.2 rest

/-! ## Claim theorems for the fan/seat poller -/

/-- C6: a fan nibble in 0xB–0xF is replaced by the position's previous fan
value and any other nibble is kept; a heater nibble in 0x4–0xF is replaced
by the position's previous heater value and any other nibble is kept (so an
invalid reading never overwrites the carried value, since the new previous
value is exactly the filter's output); and the FL-position run with fan
words `[0x3, 0xC, 0x5]` and heater words `[0x1, 0x4, 0x2]` publishes
`fan = [3, 3, 5]` and `heater = [1, 1, 2]`. -/
theorem fan_seat_sentinel_carry :
    (∀ prev v, (0xB ≤ v ∧ v ≤ 0xF → fan_filter prev v = prev)
        ∧ (¬ (0xB ≤ v ∧ v ≤ 0xF) → fan_filter prev v = v))
      ∧ (∀ prev v, (0x4 ≤ v ∧ v ≤ 0xF → seat_filter prev v = prev)
          ∧ (¬ (0x4 ≤ v ∧ v ≤ 0xF) → seat_filter prev v = v))
      ∧ (∀ prev_fan prev_seat w1 w2,
          (poller_cycle prev_fan prev_seat w1 w2).1.fl
            = fan_filter prev_fan.fl (w1 &&& 0xF)
          ∧ (poller_cycle prev_fan prev_seat w1 w2).2.fl
            = seat_filter prev_seat.fl (w2 &&& 0xF))
      ∧ (poller_run poller_init_prev poller_init_prev
            [some (0x3, 0x1), some (0xC, 0x4), some (0x5, 0x2)]).map
          (fun o => (o.1.fl, o.2.fl)) = [(3, 1), (3, 1), (5, 2)] := by
  refine ⟨?_, ?_, ?_, by decide⟩
  · intro prev v
    constructor
    · intro h
      simp [fan_filter, h]
    · intro h
      simp [fan_filter, h]
  · intro prev v
    constructor
    · intro h
      simp [seat_filter, h]
    · intro h
      simp [seat_filter, h]
  · intro prev_fan prev_seat w1 w2
    exact ⟨rfl, rfl⟩

theorem fan_seat_sentinel_carry_witness :
    fan_filter 3 0xC = 3 ∧ seat_filter 1 0x4 = 1 :=
  ⟨(fan_seat_sentinel_carry.1 3 0xC).1 (by omega),
   ((fan_seat_sentinel_carry.2.1 1 0x4).1 (by omega))⟩

/-- A bound holding at every position of a quad. -/
def quad_le (q : Quad) (b : Nat) : Prop :=
  q.fl ≤ b ∧ q.fr ≤ b ∧ q.rl ≤ b ∧ q.rr ≤ b

theorem fan_filter_le (prev v : Nat) (hp : prev ≤ 0xA) (hv : v ≤ 0xF) :
    fan_filter prev v ≤ 0xA := by
  unfold fan_filter
  split <;> omega

theorem seat_filter_le (prev v : Nat) (hp : prev ≤ 0x3) (hv : v ≤ 0xF) :
    seat_filter prev v ≤ 0x3 := by
  unfold seat_filter
  split <;> omega

theorem quad_of_word_le (w : Nat) : quad_le (quad_of_word w) 0xF :=
  ⟨Nat.and_le_right, Nat.and_le_right, Nat.and_le_right, Nat.and_le_right⟩

theorem poller_cycle_le (prev_fan prev_seat : Quad) (w1 w2 : Nat)
    (hf : quad_le prev_fan 0xA) (hs : quad_le prev_seat 0x3) :
    quad_le (poller_cycle prev_fan prev_seat w1 w2).1 0xA
      ∧ quad_le (poller_cycle prev_fan prev_seat w1 w2).2 0x3 := by
  obtain ⟨hf1, hf2, hf3, hf4⟩ := hf
  obtain ⟨hs1, hs2, hs3, hs4⟩ := hs
  obtain ⟨hw1, hw2, hw3, hw4⟩ := quad_of_word_le w1
  obtain ⟨hv1, hv2, hv3, hv4⟩ := quad_of_word_le w2
  exact ⟨⟨fan_filter_le _ _ hf1 hw1, fan_filter_le _ _ hf2 hw2,
      fan_filter_le _ _ hf3 hw3, fan_filter_le _ _ hf4 hw4⟩,
    ⟨seat_filter_le _ _ hs1 hv1, seat_filter_le _ _ hs2 hv2,
      seat_filter_le _ _ hs3 hv3, seat_filter_le _ _ hs4 hv4⟩⟩

theorem poller_run_le (ws : List (Option (Nat × Nat))) :
    ∀ (prev_fan prev_seat : Quad), quad_le prev_fan 0xA → quad_le prev_seat 0x3 →
      ∀ out ∈ poller_run prev_fan prev_seat ws,
        quad_le out.1 0xA ∧ quad_le out.2 0x3 := by
  induction ws with
  | nil => intro _ _ _ _ out hmem; simp [poller_run] at hmem
  | cons o rest ih =>
    intro prev_fan prev_seat hf hs out hmem
    match o with
    | none =>
      exact ih prev_fan prev_seat hf hs out hmem
    | some (w1, w2) =>
      rw [poller_run] at hmem
      rcases List.mem_cons.mp hmem with heq | hmem'
      · subst heq
        exact poller_cycle_le prev_fan prev_seat w1 w2 hf hs
      · have hc := poller_cycle_le prev_fan prev_seat w1 w2 hf hs
        exact ih _ _ hc.1 hc.2 out hmem'

/-- C10: the poller's previous values start at 0 for every position, and
every (fan, seat) pair it ever publishes — over any run, with any mix of
failed and successful reads — has all four fan values in 0x0–0xA and all
four heater values in 0x0–0x3, including a first cycle whose sample is
invalid. -/
theorem poller_published_range :
    poller_init_prev = ⟨0, 0, 0, 0⟩
      ∧ ∀ (ws : List (Option (Nat × Nat))),
          ∀ out ∈ poller_run poller_init_prev poller_init_prev ws,
            quad_le out.1 0xA ∧ quad_le out.2 0x3 := by
  refine ⟨rfl, ?_⟩
  intro ws out hmem
  exact poller_run_le ws poller_init_prev poller_init_prev
    ⟨Nat.zero_le _, Nat.zero_le _, Nat.zero_le _, Nat.zero_le _⟩
    ⟨Nat.zero_le _, Nat.zero_le _, Nat.zero_le _, Nat.zero_le _⟩ out hmem

theorem poller_published_range_witness :
    quad_le (Quad.mk 0 0 0 0) 0xA ∧ quad_le (Quad.mk 0 0 0 0) 0x3 :=
  poller_published_range.2 [some (0xC, 0x4)] (Quad.mk 0 0 0 0, Quad.mk 0 0 0 0)
    (by decide)
